import Mathlib

/-!
Verification of the stock-price dashboard's data pipeline (`src/app.py`).

We shallowly embed the three pipeline stages:

* the row validator `check_rows` (app.py lines 35-105),
* the OHLC aggregator `prepare_candlestick_data` (app.py lines 107-125),
* the module-level sheet loop and summary-metrics block (app.py lines 248-313).

Spreadsheet cells are modelled by the inductive type `Cell`, covering the
behaviourally distinct classes of values a pandas cell can hold with respect
to the three operations the validator applies to it: `isnull`, `to_datetime`,
and `to_numeric(errors='coerce')`.  Dates are modelled as integers (days since
the epoch, which is all the pipeline ever uses of them: equality for daily
grouping and ordering for the resample span) and prices as rationals.
-/

set_option autoImplicit false

namespace StockDashboard

/-- A spreadsheet cell value, by behavioural class:

* `null` — an empty / NaN cell (`isnull` is true);
* `num q` — a numeric cell holding the number `q`;
* `dateLike d` — a date-like cell (date text or a pandas `Timestamp`)
  parsing to day `d`; `to_numeric(…, errors='coerce')` turns it into NaN;
* `natText` — a non-null text such as `"NaT"` or `"nan"`: `isnull` is false
  on it, yet `to_datetime` parses it to `NaT` without raising, and
  `to_numeric(…, errors='coerce')` yields NaN;
* `text s` — text that is neither date-like, NaT-like nor numeric:
  `to_datetime` raises, `to_numeric(…, errors='coerce')` yields NaN;
* `obj` — a non-scalar object on which `to_numeric` raises even with
  `errors='coerce'` (and `to_datetime` raises as well). -/
inductive Cell where
  | null
  | num (q : ℚ)
  | dateLike (d : ℤ)
  | natText
  | text (s : String)
  | obj
  deriving DecidableEq, Repr

namespace Cell

/-- `pd.isnull` on a single cell. -/
def isNull : Cell → Bool
  | null => true
  | _ => false

/-- Nanoseconds per day: `pd.to_datetime` interprets a bare number as a
nanosecond offset from the epoch. -/
def nsPerDay : ℚ := 86400000000000

/-- `pd.to_datetime` on a single cell: `.error ()` models a raised exception,
`.ok none` models `NaT` (which `to_datetime` returns for a null input without
raising), `.ok (some d)` a successful parse to day `d`. -/
def toDatetime : Cell → Except Unit (Option ℤ)
  | null => .ok none
  | num q => .ok (some ⌊q / nsPerDay⌋)
  | dateLike d => .ok (some d)
  | natText => .ok none
  | text _ => .error ()
  | obj => .error ()

/-- `pd.to_numeric(…, errors='coerce')` on a single cell: `.error ()` models a
raised exception (non-scalar objects raise even under `errors='coerce'`),
`.ok none` models coercion to NaN, `.ok (some q)` a successful coercion. -/
def toNumericCoerce : Cell → Except Unit (Option ℚ)
  | null => .ok none
  | num q => .ok (some q)
  | dateLike _ => .ok none
  | natText => .ok none
  | text _ => .ok none
  | obj => .error ()

end Cell

/-- One spreadsheet row: the two required fields (`Date`, `Price`) plus the
cells of any extra / unexpected columns. -/
structure Row where
  date : Cell
  price : Cell
  extra : List Cell
  deriving DecidableEq, Repr

namespace Row

/-- `row.isnull().any()`: pandas scans every cell of the row, the extra
columns included. -/
def hasNull (r : Row) : Bool :=
  r.date.isNull || r.price.isNull || r.extra.any Cell.isNull

end Row

/-- The body of the validation loop of `check_rows` (app.py lines 49-82) on
one row: returns `is_valid` and the accumulated `row_messages`, in the order
the code appends them (null check, then date check, then price check). -/
def checkRow (r : Row) : Bool × List String :=
  -- Check for null values (line 54)
  let nullRes : Bool × List String :=
    if r.hasNull then (false, ["Contains null values"]) else (true, [])
  -- Validate date (lines 59-63): only raising matters, `date_val` is unused
  let dateRes : Bool × List String :=
    match r.date.toDatetime with
    | .error _ => (false, ["Invalid date format"])
    | .ok _ => (true, [])
  -- Validate price (lines 66-73)
  let priceRes : Bool × List String :=
    match r.price.toNumericCoerce with
    | .error _ => (false, ["Price is not numeric"])
    | .ok none => (false, ["Invalid price value"])
    | .ok (some q) => if q ≤ 0 then (false, ["Invalid price value"]) else (true, [])
  (nullRes.1 && dateRes.1 && priceRes.1, nullRes.2 ++ dateRes.2 ++ priceRes.2)

/-- The partition the loop of `check_rows` builds: `valid_rows` in original
order, and `invalid_rows` as (0-based dataframe index, row_messages) pairs in
original order.  `i` is the index of the first row of the remaining list. -/
def partitionRows (i : ℕ) : List Row → List Row × List (ℕ × List String)
  | [] => ([], [])
  | r :: rs =>
    let res := checkRow r
    let rest := partitionRows (i + 1) rs
    if res.1 then (r :: rest.1, rest.2) else (rest.1, (i, res.2) :: rest.2)

/-- Canonical coercion of the `Date` cell of a surviving row
(`cleaned_df['Date'] = pd.to_datetime(cleaned_df['Date'])`, line 88).
The `.error` branch is unreachable for rows that passed the date check
(there `to_datetime` would raise and abort `check_rows`). -/
def canonDate (c : Cell) : Cell :=
  match c.toDatetime with
  | .ok (some d) => .dateLike d
  | .ok none => .null
  | .error _ => c

/-- Canonical coercion of the `Price` cell of a surviving row
(`cleaned_df['Price'] = pd.to_numeric(cleaned_df['Price'])`, line 90).
Branches other than a successful coercion are unreachable for rows that
passed the price check. -/
def canonPrice (c : Cell) : Cell :=
  match c.toNumericCoerce with
  | .ok (some q) => .num q
  | _ => c

/-- The canonical-type coercion `check_rows` applies to the surviving rows
(lines 87-90): `Date` and `Price` re-coerced, extra columns untouched. -/
def canonicalize (r : Row) : Row :=
  { date := canonDate r.date, price := canonPrice r.price, extra := r.extra }

/-- Format of a per-row rejection line (line 98): the reported index is the
0-based dataframe index plus one, i.e. the 1-based original position. -/
def rejectionLine (p : ℕ × List String) : String :=
  "Row " ++ toString (p.1 + 1) ++ ": " ++ String.intercalate ", " p.2

/-- `check_rows` (app.py lines 35-105): validates each row, rebuilds the
cleaned dataframe from the valid rows with canonical `Date`/`Price` types, and
produces the validation messages.  Returns `(none, ["No valid rows found in
the data"])` when no row passes. -/
def check_rows (df : List Row) : Option (List Row) × List String :=
  let parts := partitionRows 0 df
  if parts.1 = [] then
    (none, ["No valid rows found in the data"])
  else
    let cleaned := parts.1.map canonicalize
    let headerMsgs : List String :=
      if parts.2.isEmpty then []
      else
        ("Removed " ++ toString parts.2.length ++ " invalid rows:")
          :: parts.2.map rejectionLine
    let removed := df.length - cleaned.length
    let summaryMsgs : List String :=
      if removed > 0 then ["Total rows removed: " ++ toString removed] else []
    (some cleaned, headerMsgs ++ summaryMsgs)

/-! ## Series aggregator (`prepare_candlestick_data`, app.py lines 107-125)

A cleaned series enters the aggregator as its `(Date, Price)` observations:
a list of `(day, price)` pairs in original row order (the canonical `Date`
cells carry a day value, the canonical `Price` cells a rational).  `resample('D')`
spans every calendar day from the earliest to the latest observation, takes
first/max/min/last of each day's observations (within a day all timestamps
coincide, so pandas' stable handling keeps the original row order), leaves NaN
on days with no observation, and `.dropna()` then discards those days. -/

/-- One daily OHLC bar.  The close is surfaced under the field name `Price`
(the code renames the `Close` column, line 123). -/
structure OHLCBar where
  day : ℤ
  Open : ℚ
  High : ℚ
  Low : ℚ
  Price : ℚ
  deriving DecidableEq, Repr

/-- The prices observed on day `d`, in original row order. -/
def dayPrices (rows : List (ℤ × ℚ)) (d : ℤ) : List ℚ :=
  (rows.filter (fun p => p.1 = d)).map Prod.snd

/-- Maximum of a list of prices (0 on the empty list, which the aggregator
never queries). -/
def pricesMax : List ℚ → ℚ
  | [] => 0
  | q :: qs => qs.foldl max q

/-- Minimum of a list of prices (0 on the empty list, which the aggregator
never queries). -/
def pricesMin : List ℚ → ℚ
  | [] => 0
  | q :: qs => qs.foldl min q

/-- The aggregation `{'Open': 'first', 'High': 'max', 'Low': 'min',
'Close': 'last'}` on one resampled day: a day with no observations keeps NaN
in every column and is removed by `.dropna()`, modelled as `none`. -/
def aggDay (rows : List (ℤ × ℚ)) (d : ℤ) : Option OHLCBar :=
  match dayPrices rows d with
  | [] => none
  | q :: qs =>
    some { day := d, Open := q, High := pricesMax (q :: qs),
           Low := pricesMin (q :: qs), Price := (q :: qs).getLastD q }

/-- The consecutive days `lo, lo+1, …, hi` spanned by `resample('D')`. -/
def dayRange (lo hi : ℤ) : List ℤ :=
  (List.range (hi - lo + 1).toNat).map (fun (i : ℕ) => lo + (i : ℤ))

/-- `prepare_candlestick_data` (app.py lines 107-125): daily OHLC resampling
of a cleaned series' `(day, price)` observations, dropping empty days. -/
def prepare_candlestick_data (rows : List (ℤ × ℚ)) : List OHLCBar :=
  match rows with
  | [] => []
  | r :: rs =>
    let lo := (rs.map Prod.fst).foldl min r.1
    let hi := (rs.map Prod.fst).foldl max r.1
    (dayRange lo hi).filterMap (aggDay rows)

/-! ## Summary metrics (app.py lines 303-313)

Computed straight from the cleaned series' `Price` column, not from the OHLC
bars. -/

/-- `df['Price'].iloc[-1]` (line 304). -/
def current_price (rows : List (ℤ × ℚ)) : ℚ :=
  (rows.map Prod.snd).getLastD 0

/-- `df['Price'].iloc[-1] - df['Price'].iloc[0]` (line 308). -/
def total_change (rows : List (ℤ × ℚ)) : ℚ :=
  (rows.map Prod.snd).getLastD 0 - (rows.map Prod.snd).headD 0

/-- `(price_change / df['Price'].iloc[0]) * 100` (line 312). -/
def percent_change (rows : List (ℤ × ℚ)) : ℚ :=
  total_change rows / (rows.map Prod.snd).headD 0 * 100

/-! ## Sheet loop (app.py lines 248-260)

For each sheet the loop checks for the two required columns by exact name,
runs `check_rows`, and stores the cleaned dataframe and messages into `dfs` /
`validation_messages` only when cleaning succeeded.  The `st.error` and
`st.warning` calls for the failure branches (lines 257-260) are commented out
in the source, so the loop displays nothing; we nevertheless collect the
user-facing messages it emits (always none) to state that fact. -/

/-- One sheet of the uploaded workbook: its name, its column names, and its
rows. -/
structure Sheet where
  name : String
  cols : List String
  rows : List Row
  deriving Repr

/-- Result of the sheet loop: the `dfs` mapping (sheet name to cleaned rows)
and `validation_messages` in insertion order, plus every user-facing warning
or error message the loop displays. -/
structure SheetLoopResult where
  dfs : List (String × List Row)
  validation_messages : List (String × List String)
  displayed : List String
  deriving Repr

/-- The module-level sheet loop (lines 248-260).  Both failure branches are
commented out in the source, so they display nothing. -/
def processSheets (sheets : List Sheet) : SheetLoopResult :=
  match sheets with
  | [] => { dfs := [], validation_messages := [], displayed := [] }
  | s :: rest =>
    let tail := processSheets rest
    if s.cols.contains "Date" && s.cols.contains "Price" then
      match check_rows s.rows with
      | (some cleaned, msgs) =>
        { dfs := (s.name, cleaned) :: tail.dfs,
          validation_messages := (s.name, msgs) :: tail.validation_messages,
          displayed := tail.displayed }
      | (none, _) =>
        -- `st.error(f"Sheet '{sheet}' has invalid data: …")` is commented out
        { tail with displayed := tail.displayed }
    else
      -- `st.warning(f"Sheet '{sheet}' does not contain …")` is commented out
      { tail with displayed := tail.displayed }

/-- The selectable stock list: `list(dfs.keys())` (line 276). -/
def stockList (sheets : List Sheet) : List String :=
  (processSheets sheets).dfs.map Prod.fst

/-! ## Concrete sample inputs used in the claims -/

/-- The aggregator example series: three observations on day 1 (prices 10,
12, 8 in original row order) and one on day 2 (price 20). -/
def sampleSeries : List (ℤ × ℚ) := [(1, 10), (1, 12), (1, 8), (2, 20)]

/-- The metrics example series `[(d1, 100), (d2, 150)]`. -/
def metricSeries : List (ℤ × ℚ) := [(1, 100), (2, 150)]

/-- A row whose required fields are pristine but whose single extra column
holds a null. -/
def extraNullRow : Row := { date := .dateLike 1, price := .num 5, extra := [.null] }

/-- A sheet whose only row is invalid on every count. -/
def allInvalidDf : List Row := [{ date := .text "garbage", price := .num (-1), extra := [] }]

/-- A row whose price cell is null: `to_numeric` coerces it to NaN. -/
def nullPriceRow : Row := { date := .dateLike 1, price := .null, extra := [] }

/-- A row whose price coerces to a non-positive number. -/
def negPriceRow : Row := { date := .dateLike 1, price := .num (-3), extra := [] }

/-- A row whose price cell makes `to_numeric` raise even under
`errors='coerce'`. -/
def objPriceRow : Row := { date := .dateLike 1, price := .obj, extra := [] }

/-- A row whose date cell is a non-null NaT-parsing text such as `"NaT"`. -/
def natDateRow : Row := { date := .natText, price := .num 5, extra := [] }

/-- A small sheet mixing valid rows (with an extra column) and an invalid
row. -/
def mixedDf : List Row :=
  [{ date := .dateLike 1, price := .num 5, extra := [.num 7] },
   { date := .null, price := .num 3, extra := [.text "note"] },
   { date := .dateLike 2, price := .num 4, extra := [.text "ok"] }]

/-- A one-row sheet whose row is rejected for a null date. -/
def oneBadDf : List Row := [{ date := .null, price := .null, extra := [] }]

/-- A workbook with one sheet lacking the `Price` column and one complete
sheet. -/
def sampleSheets : List Sheet :=
  [{ name := "AAPL", cols := ["Date", "Volume"],
     rows := [{ date := .dateLike 1, price := .num 5, extra := [] }] },
   { name := "MSFT", cols := ["Date", "Price"],
     rows := [{ date := .dateLike 1, price := .num 5, extra := [] }] }]

/-! ## Basic properties of the validator -/

lemma checkRow_true_iff (r : Row) :
    (checkRow r).1 = true ↔
      r.hasNull = false ∧ (∃ v, r.date.toDatetime = .ok v) ∧
        ∃ q, r.price.toNumericCoerce = .ok (some q) ∧ 0 < q := by
  unfold checkRow
  cases hn : r.hasNull <;>
    rcases hd : r.date.toDatetime with e | v <;>
      rcases hp : r.price.toNumericCoerce with e2 | o <;>
        try simp [hn, hd, hp]
  all_goals
    rcases o with _ | q
    · simp
    · rcases lt_or_le 0 q with hq | hq
      · simp [hq, hq.not_le]
      · simp [hq, hq.not_lt]

lemma checkRow_msgs (r : Row) :
    (checkRow r).2 =
      (if r.hasNull then ["Contains null values"] else [])
      ++ (match r.date.toDatetime with
          | .error _ => ["Invalid date format"]
          | .ok _ => [])
      ++ (match r.price.toNumericCoerce with
          | .error _ => ["Price is not numeric"]
          | .ok none => ["Invalid price value"]
          | .ok (some q) => if q ≤ 0 then ["Invalid price value"] else []) := by
  unfold checkRow
  cases hn : r.hasNull <;>
    rcases hd : r.date.toDatetime with e | v <;>
      rcases hp : r.price.toNumericCoerce with e2 | o <;>
        try rcases o with _ | q <;>
          try by_cases hq : q ≤ 0
  all_goals simp [hn, hd, hp]
  all_goals simp [hq]

lemma partitionRows_fst (i : ℕ) (df : List Row) :
    (partitionRows i df).1 = df.filter (fun r => (checkRow r).1) := by
  induction df generalizing i with
  | nil => rfl
  | cons r rs ih =>
    unfold partitionRows
    cases h : (checkRow r).1 <;> simp [h, ih]

lemma partitionRows_snd (i : ℕ) (df : List Row) :
    (partitionRows i df).2 =
      ((df.enumFrom i).filter (fun p => !(checkRow p.2).1)).map
        (fun p => (p.1, (checkRow p.2).2)) := by
  induction df generalizing i with
  | nil => rfl
  | cons r rs ih =>
    unfold partitionRows
    cases h : (checkRow r).1 <;> simp [List.enumFrom, h, ih]

lemma partitionRows_length (i : ℕ) (df : List Row) :
    (partitionRows i df).1.length + (partitionRows i df).2.length = df.length := by
  induction df generalizing i with
  | nil => rfl
  | cons r rs ih =>
    have hlen := ih (i + 1)
    unfold partitionRows
    cases h : (checkRow r).1 <;> simp [h] <;> omega

lemma partitionRows_all_valid (i : ℕ) (df : List Row)
    (h : ∀ r ∈ df, (checkRow r).1 = true) : partitionRows i df = (df, []) := by
  induction df generalizing i with
  | nil => rfl
  | cons r rs ih =>
    unfold partitionRows
    simp [h r (by simp), ih (i + 1) (fun x hx => h x (by simp [hx]))]

lemma toNumericCoerce_ok_some {c : Cell} {q : ℚ}
    (h : c.toNumericCoerce = .ok (some q)) : c = .num q := by
  cases c <;> simp [Cell.toNumericCoerce] at h
  simp [h]

lemma hasNull_false_parts {r : Row} (h : r.hasNull = false) :
    r.date.isNull = false ∧ r.price.isNull = false ∧ ∀ c ∈ r.extra, c.isNull = false := by
  simp [Row.hasNull] at h
  exact ⟨h.1.1, h.1.2, h.2⟩

lemma canonicalize_pass {r : Row} (h : (checkRow r).1 = true) :
    ∃ q, 0 < q ∧ (∀ c ∈ r.extra, c.isNull = false) ∧
      canonicalize r = { date := canonDate r.date, price := .num q, extra := r.extra } ∧
      (canonDate r.date = .null ∨ ∃ d, canonDate r.date = .dateLike d) := by
  obtain ⟨hn, ⟨v, hd⟩, ⟨q, hp, hq⟩⟩ := (checkRow_true_iff r).1 h
  obtain ⟨-, -, hen⟩ := hasNull_false_parts hn
  refine ⟨q, hq, hen, ?_, ?_⟩
  · simp only [canonicalize, canonPrice, hp]
  · unfold canonDate
    rw [hd]
    cases v with
    | none => exact Or.inl rfl
    | some d => exact Or.inr ⟨d, rfl⟩

lemma checkRow_canonical_pass {d : ℤ} {q : ℚ} (hq : 0 < q) {extra : List Cell}
    (hen : ∀ c ∈ extra, c.isNull = false) :
    (checkRow { date := .dateLike d, price := .num q, extra := extra }).1 = true := by
  refine (checkRow_true_iff _).2 ⟨?_, ⟨some d, rfl⟩, ⟨q, rfl, hq⟩⟩
  simp [Row.hasNull, Cell.isNull]
  exact hen

lemma canonicalize_canonical {d : ℤ} {q : ℚ} {extra : List Cell} :
    canonicalize { date := .dateLike d, price := .num q, extra := extra }
      = { date := .dateLike d, price := .num q, extra := extra } := rfl

lemma map_fix {α : Type} (f : α → α) :
    ∀ l : List α, (∀ x ∈ l, f x = x) → l.map f = l
  | [], _ => rfl
  | x :: xs, h => by
    rw [List.map_cons, h x (by simp), map_fix f xs (fun y hy => h y (by simp [hy]))]

/-- `check_rows` unfolded into its partition-based components. -/
lemma check_rows_eq (df : List Row) :
    check_rows df =
      if (partitionRows 0 df).1 = [] then
        (none, ["No valid rows found in the data"])
      else
        (some ((partitionRows 0 df).1.map canonicalize),
          (if (partitionRows 0 df).2.isEmpty then []
           else ("Removed " ++ toString (partitionRows 0 df).2.length ++ " invalid rows:")
             :: (partitionRows 0 df).2.map rejectionLine)
          ++ (if df.length - ((partitionRows 0 df).1.map canonicalize).length > 0 then
                ["Total rows removed: "
                  ++ toString (df.length - ((partitionRows 0 df).1.map canonicalize).length)]
              else [])) := rfl

/-! ## Basic properties of the aggregator -/

section FoldOrderLemmas

variable {α : Type} [LinearOrder α]

lemma foldl_min_le_init (l : List α) (a : α) : l.foldl min a ≤ a := by
  induction l generalizing a with
  | nil => exact le_refl a
  | cons b bs ih => exact le_trans (ih (min a b)) (min_le_left a b)

lemma foldl_min_le_mem (l : List α) (a : α) {x : α} (hx : x ∈ l) : l.foldl min a ≤ x := by
  induction l generalizing a with
  | nil => cases hx
  | cons b bs ih =>
    rcases List.mem_cons.mp hx with rfl | hx2
    · exact le_trans (foldl_min_le_init bs (min a x)) (min_le_right a x)
    · exact ih (min a b) hx2

lemma le_foldl_max_init (l : List α) (a : α) : a ≤ l.foldl max a := by
  induction l generalizing a with
  | nil => exact le_refl a
  | cons b bs ih => exact le_trans (le_max_left a b) (ih (max a b))

lemma mem_le_foldl_max (l : List α) (a : α) {x : α} (hx : x ∈ l) : x ≤ l.foldl max a := by
  induction l generalizing a with
  | nil => cases hx
  | cons b bs ih =>
    rcases List.mem_cons.mp hx with rfl | hx2
    · exact le_trans (le_max_right a x) (le_foldl_max_init bs (max a x))
    · exact ih (max a b) hx2

lemma foldl_max_mem (l : List α) (a : α) : l.foldl max a = a ∨ l.foldl max a ∈ l := by
  induction l generalizing a with
  | nil => exact Or.inl rfl
  | cons b bs ih =>
    rw [List.foldl_cons]
    rcases ih (max a b) with h | h
    · rw [h]
      rcases max_choice a b with h2 | h2
      · exact Or.inl h2
      · exact Or.inr (by simp [h2])
    · exact Or.inr (by simp [h])

lemma foldl_min_mem (l : List α) (a : α) : l.foldl min a = a ∨ l.foldl min a ∈ l := by
  induction l generalizing a with
  | nil => exact Or.inl rfl
  | cons b bs ih =>
    rw [List.foldl_cons]
    rcases ih (min a b) with h | h
    · rw [h]
      rcases min_choice a b with h2 | h2
      · exact Or.inl h2
      · exact Or.inr (by simp [h2])
    · exact Or.inr (by simp [h])

end FoldOrderLemmas

lemma pricesMax_mem (q : ℚ) (qs : List ℚ) : pricesMax (q :: qs) ∈ q :: qs := by
  unfold pricesMax
  rcases foldl_max_mem qs q with h | h
  · simp [h]
  · simp [h]

lemma le_pricesMax (q : ℚ) (qs : List ℚ) : ∀ p ∈ q :: qs, p ≤ pricesMax (q :: qs) := by
  intro p hp
  unfold pricesMax
  rcases List.mem_cons.mp hp with rfl | h
  · exact le_foldl_max_init qs p
  · exact mem_le_foldl_max qs q h

lemma pricesMin_mem (q : ℚ) (qs : List ℚ) : pricesMin (q :: qs) ∈ q :: qs := by
  unfold pricesMin
  rcases foldl_min_mem qs q with h | h
  · simp [h]
  · simp [h]

lemma pricesMin_le (q : ℚ) (qs : List ℚ) : ∀ p ∈ q :: qs, pricesMin (q :: qs) ≤ p := by
  intro p hp
  unfold pricesMin
  rcases List.mem_cons.mp hp with rfl | h
  · exact foldl_min_le_init qs p
  · exact foldl_min_le_mem qs q h

lemma mem_dayRange {lo hi d : ℤ} (h1 : lo ≤ d) (h2 : d ≤ hi) : d ∈ dayRange lo hi := by
  unfold dayRange
  have h3 : (d - lo).toNat < (hi - lo + 1).toNat := by omega
  have h4 : lo + ((d - lo).toNat : ℤ) = d := by omega
  simp only [List.mem_map, List.mem_range]
  exact ⟨(d - lo).toNat, h3, h4⟩

lemma aggDay_some_fields {rows : List (ℤ × ℚ)} {d : ℤ} {bar : OHLCBar}
    (h : aggDay rows d = some bar) :
    bar.day = d ∧ bar.Open = (dayPrices rows d).headD 0 ∧
      bar.Price = (dayPrices rows d).getLastD 0 ∧
      bar.High = pricesMax (dayPrices rows d) ∧
      bar.Low = pricesMin (dayPrices rows d) ∧ dayPrices rows d ≠ [] := by
  unfold aggDay at h
  cases hd : dayPrices rows d with
  | nil => rw [hd] at h; cases h
  | cons p ps =>
    rw [hd] at h
    cases h
    refine ⟨rfl, by simp, ?_, rfl, rfl, by simp⟩
    rw [List.getLastD_cons, List.getLastD_cons]

lemma dayPrices_ne_nil {rows : List (ℤ × ℚ)} {d : ℤ} (hd : d ∈ rows.map Prod.fst) :
    dayPrices rows d ≠ [] := by
  obtain ⟨p, hp, hpd⟩ := List.mem_map.1 hd
  unfold dayPrices
  simp only [ne_eq, List.map_eq_nil_iff, List.filter_eq_nil_iff]
  intro hall
  exact hall p hp (by simp [hpd])

lemma aggDay_some_of_mem {rows : List (ℤ × ℚ)} {d : ℤ} (hd : d ∈ rows.map Prod.fst) :
    ∃ bar, aggDay rows d = some bar := by
  have hne := dayPrices_ne_nil hd
  unfold aggDay
  cases h : dayPrices rows d with
  | nil => exact absurd h hne
  | cons p ps => exact ⟨_, rfl⟩

lemma prepare_mem_iff {rows : List (ℤ × ℚ)} {bar : OHLCBar} :
    bar ∈ prepare_candlestick_data rows ↔
      ∃ d ∈ rows.map Prod.fst, aggDay rows d = some bar := by
  cases rows with
  | nil => simp [prepare_candlestick_data]
  | cons r rs =>
    unfold prepare_candlestick_data
    rw [List.mem_filterMap]
    constructor
    · rintro ⟨d, -, hagg⟩
      refine ⟨d, ?_, hagg⟩
      have hne := (aggDay_some_fields hagg).2.2.2.2.2
      unfold dayPrices at hne
      rcases List.exists_mem_of_ne_nil _ hne with ⟨p, hp⟩
      obtain ⟨x, hx, rfl⟩ := List.mem_map.1 hp
      have := List.mem_filter.1 hx
      refine List.mem_map.2 ⟨x, this.1, by simpa using this.2⟩
    · rintro ⟨d, hdm, hagg⟩
      refine ⟨d, ?_, hagg⟩
      have hdm2 : d ∈ r.1 :: rs.map Prod.fst := by
        rw [List.map_cons] at hdm; exact hdm
      have hlo : (rs.map Prod.fst).foldl min r.1 ≤ d := by
        rcases List.mem_cons.mp hdm2 with h | h
        · rw [← h]; exact foldl_min_le_init _ _
        · exact foldl_min_le_mem _ _ h
      have hhi : d ≤ (rs.map Prod.fst).foldl max r.1 := by
        rcases List.mem_cons.mp hdm2 with h | h
        · rw [← h]; exact le_foldl_max_init _ _
        · exact mem_le_foldl_max _ _ h
      exact mem_dayRange hlo hhi

/-! ## Claims -/

/-- C1: For every cleaned series, the OHLC derivation groups observations by
calendar day: a day carries a bar exactly when it has at least one
observation (so days with zero observations produce no bar), and each bar has
open = price of the first observation of that day in original row order,
close (surfaced under the field name `Price`) = price of the last observation
that day, high = maximum and low = minimum price that day; in particular on
the input rows `[(day 1, 10), (day 1, 12), (day 1, 8), (day 2, 20)]` the bar
for day 1 is (open 10, high 12, low 8, close 8) and the bar for day 2 is
(20, 20, 20, 20). -/
theorem ohlc_day_grouping :
    (∀ (rows : List (ℤ × ℚ)) (d : ℤ),
      (∃ bar ∈ prepare_candlestick_data rows, bar.day = d) ↔ d ∈ rows.map Prod.fst) ∧
    (∀ (rows : List (ℤ × ℚ)) (bar : OHLCBar), bar ∈ prepare_candlestick_data rows →
      bar.Open = (dayPrices rows bar.day).headD 0 ∧
      bar.Price = (dayPrices rows bar.day).getLastD 0 ∧
      bar.High ∈ dayPrices rows bar.day ∧
      (∀ p ∈ dayPrices rows bar.day, p ≤ bar.High) ∧
      bar.Low ∈ dayPrices rows bar.day ∧
      (∀ p ∈ dayPrices rows bar.day, bar.Low ≤ p)) ∧
    prepare_candlestick_data sampleSeries =
      [⟨1, 10, 12, 8, 8⟩, ⟨2, 20, 20, 20, 20⟩] := by
  refine ⟨?_, ?_, by decide⟩
  · intro rows d
    constructor
    · rintro ⟨bar, hmem, rfl⟩
      obtain ⟨d2, hd2, hagg⟩ := prepare_mem_iff.1 hmem
      have := (aggDay_some_fields hagg).1
      rwa [this]
    · intro hd
      obtain ⟨bar, hagg⟩ := aggDay_some_of_mem hd
      exact ⟨bar, prepare_mem_iff.2 ⟨d, hd, hagg⟩, (aggDay_some_fields hagg).1⟩
  · intro rows bar hmem
    obtain ⟨d, hd, hagg⟩ := prepare_mem_iff.1 hmem
    obtain ⟨hday, hOpen, hPrice, hHigh, hLow, hne⟩ := aggDay_some_fields hagg
    subst hday
    cases hp : dayPrices rows bar.day with
    | nil => exact absurd hp hne
    | cons p ps =>
      rw [hp] at hOpen hPrice hHigh hLow
      exact ⟨hOpen, hPrice,
        by rw [hHigh]; exact pricesMax_mem p ps,
        fun x hx => by rw [hHigh]; exact le_pricesMax p ps x hx,
        by rw [hLow]; exact pricesMin_mem p ps,
        fun x hx => by rw [hLow]; exact pricesMin_le p ps x hx⟩

/-- Witness for `ohlc_day_grouping`: its per-bar clause applied to the day-1
bar of the concrete example series. -/
theorem ohlc_day_grouping_witness :
    (⟨1, 10, 12, 8, 8⟩ : OHLCBar).Open = (dayPrices sampleSeries 1).headD 0 ∧
    (⟨1, 10, 12, 8, 8⟩ : OHLCBar).Price = (dayPrices sampleSeries 1).getLastD 0 ∧
    (⟨1, 10, 12, 8, 8⟩ : OHLCBar).High ∈ dayPrices sampleSeries 1 ∧
    (∀ p ∈ dayPrices sampleSeries 1, p ≤ (⟨1, 10, 12, 8, 8⟩ : OHLCBar).High) ∧
    (⟨1, 10, 12, 8, 8⟩ : OHLCBar).Low ∈ dayPrices sampleSeries 1 ∧
    (∀ p ∈ dayPrices sampleSeries 1, (⟨1, 10, 12, 8, 8⟩ : OHLCBar).Low ≤ p) :=
  ohlc_day_grouping.2.1 sampleSeries ⟨1, 10, 12, 8, 8⟩ (by decide)

lemma getLastD_map_snd :
    ∀ (l : List (ℤ × ℚ)) (a : ℤ × ℚ), (l.map Prod.snd).getLastD a.2 = (l.getLastD a).2
  | [], _ => rfl
  | x :: xs, a => by
    rw [List.map_cons, List.getLastD_cons, List.getLastD_cons]
    exact getLastD_map_snd xs x

/-- C4: For every non-empty cleaned series, the three summary metrics come
straight from the series' `Price` column: current price is the last row's
price, total change is last minus first, percent change is total change over
the first price times 100; on `[(d1, 100), (d2, 150)]` they are 150, 50 and
50. -/
theorem summary_metrics :
    (∀ (r0 : ℤ × ℚ) (rest : List (ℤ × ℚ)),
      current_price (r0 :: rest) = (rest.getLastD r0).2 ∧
      total_change (r0 :: rest) = (rest.getLastD r0).2 - r0.2 ∧
      percent_change (r0 :: rest) = ((rest.getLastD r0).2 - r0.2) / r0.2 * 100) ∧
    current_price metricSeries = 150 ∧ total_change metricSeries = 50 ∧
      percent_change metricSeries = 50 := by
  refine ⟨?_, by norm_num [current_price, metricSeries],
    by norm_num [total_change, metricSeries],
    by norm_num [percent_change, total_change, metricSeries]⟩
  intro r0 rest
  have hl : ((r0 :: rest).map Prod.snd).getLastD 0 = (rest.getLastD r0).2 := by
    rw [List.map_cons, List.getLastD_cons, getLastD_map_snd]
  have hh : ((r0 :: rest).map Prod.snd).headD 0 = r0.2 := rfl
  exact ⟨by rw [current_price, hl], by rw [total_change, hl, hh],
    by rw [percent_change, total_change, hl, hh]⟩

/-- C2 (counterexample): a row whose required fields pass all three checks is
nevertheless rejected, with reason "Contains null values", when an extra
column holds a null — `row.isnull().any()` scans every column, not just the
two required fields. -/
theorem extra_null_counterexample :
    (checkRow { date := extraNullRow.date, price := extraNullRow.price, extra := [] }).1
        = true ∧
    (checkRow extraNullRow).1 = false ∧
    (checkRow extraNullRow).2 = ["Contains null values"] ∧
    check_rows [extraNullRow] = (none, ["No valid rows found in the data"]) := by
  decide

/-- C2 (amended): the date and price checks examine only the required fields,
but the null check spans every column of the row: when no extra column holds
a null the row is validated exactly as if the extra columns were absent,
while a null in any extra column rejects the row with reason
"Contains null values". -/
theorem null_check_spans_all_columns :
    (∀ (d p : Cell) (extra : List Cell), (∀ c ∈ extra, c.isNull = false) →
      checkRow { date := d, price := p, extra := extra }
        = checkRow { date := d, price := p, extra := [] }) ∧
    (∀ r : Row, r.extra.any Cell.isNull = true →
      (checkRow r).1 = false ∧ "Contains null values" ∈ (checkRow r).2) := by
  constructor
  · intro d p extra h
    have he : extra.any Cell.isNull = false := by
      rw [List.any_eq_false]
      intro c hc
      rw [h c hc]
      exact Bool.false_ne_true
    unfold checkRow Row.hasNull
    simp [he]
  · intro r h
    have hn : r.hasNull = true := by
      unfold Row.hasNull
      rw [h]
      simp
    unfold checkRow
    simp [hn]

/-- Witness for `null_check_spans_all_columns`: a non-null extra column does
not change the verdict on a concrete row. -/
theorem null_check_spans_all_columns_witness :
    checkRow { date := .dateLike 1, price := .num 5, extra := [.text "x"] }
      = checkRow { date := .dateLike 1, price := .num 5, extra := [] } :=
  null_check_spans_all_columns.1 (.dateLike 1) (.num 5) [.text "x"] (by decide)

/-- C5: every row is subjected to all three checks without short-circuiting:
it passes iff the null check, the date check and the price check all pass,
the collected reasons are exactly the concatenation of the three checks'
failure messages in check order, and the loop keeps exactly the passing
rows. -/
theorem three_independent_checks :
    (∀ r : Row, (checkRow r).1 = true ↔
      r.hasNull = false ∧ (∃ v, r.date.toDatetime = .ok v) ∧
        ∃ q, r.price.toNumericCoerce = .ok (some q) ∧ 0 < q) ∧
    (∀ r : Row, (checkRow r).2 =
      (if r.hasNull then ["Contains null values"] else [])
      ++ (match r.date.toDatetime with
          | .error _ => ["Invalid date format"]
          | .ok _ => [])
      ++ (match r.price.toNumericCoerce with
          | .error _ => ["Price is not numeric"]
          | .ok none => ["Invalid price value"]
          | .ok (some q) => if q ≤ 0 then ["Invalid price value"] else [])) ∧
    (∀ (i : ℕ) (df : List Row),
      (partitionRows i df).1 = df.filter (fun r => (checkRow r).1)) :=
  ⟨checkRow_true_iff, checkRow_msgs, partitionRows_fst⟩

/-- C6: a price that coerces to NaN or to a non-positive number rejects the
row with reason "Invalid price value", while a price on which the coercion
itself raises rejects it with the distinguishable reason
"Price is not numeric". -/
theorem price_check_diagnostics :
    (∀ r : Row, r.price.toNumericCoerce = .ok none →
      (checkRow r).1 = false ∧ "Invalid price value" ∈ (checkRow r).2) ∧
    (∀ (r : Row) (q : ℚ), r.price.toNumericCoerce = .ok (some q) → q ≤ 0 →
      (checkRow r).1 = false ∧ "Invalid price value" ∈ (checkRow r).2) ∧
    (∀ r : Row, r.price.toNumericCoerce = .error () →
      (checkRow r).1 = false ∧ "Price is not numeric" ∈ (checkRow r).2) ∧
    "Invalid price value" ≠ "Price is not numeric" := by
  refine ⟨?_, ?_, ?_, by decide⟩
  · intro r h
    unfold checkRow
    rw [h]
    simp
  · intro r q h hq
    unfold checkRow
    rw [h]
    simp [hq]
  · intro r h
    unfold checkRow
    rw [h]
    simp

/-- Witness for `price_check_diagnostics`: the three price-check branches hit
at concrete rows with a null, a negative and a non-scalar price cell. -/
theorem price_check_diagnostics_witness :
    ((checkRow nullPriceRow).1 = false ∧ "Invalid price value" ∈ (checkRow nullPriceRow).2) ∧
    ((checkRow negPriceRow).1 = false ∧ "Invalid price value" ∈ (checkRow negPriceRow).2) ∧
    ((checkRow objPriceRow).1 = false ∧ "Price is not numeric" ∈ (checkRow objPriceRow).2) :=
  ⟨price_check_diagnostics.1 nullPriceRow rfl,
   price_check_diagnostics.2.1 negPriceRow (-3) rfl (by norm_num),
   price_check_diagnostics.2.2.1 objPriceRow rfl⟩

lemma stockList_eq_filter (sheets : List Sheet) :
    stockList sheets = (sheets.filter (fun s =>
      s.cols.contains "Date" && s.cols.contains "Price"
        && (check_rows s.rows).1.isSome)).map Sheet.name := by
  induction sheets with
  | nil => rfl
  | cons s rest ih =>
    unfold stockList processSheets
    unfold stockList at ih
    rw [List.filter_cons]
    cases hc : s.cols.contains "Date" && s.cols.contains "Price" with
    | false => simp [ih]
    | true =>
      cases hcr : check_rows s.rows with
      | mk o m =>
        cases o with
        | some cleaned => simp [hcr, ih]
        | none => simp [hcr, ih]

lemma processSheets_displayed (sheets : List Sheet) :
    (processSheets sheets).displayed = [] := by
  induction sheets with
  | nil => rfl
  | cons s rest ih =>
    unfold processSheets
    cases hc : s.cols.contains "Date" && s.cols.contains "Price" with
    | false => simp [hc, ih]
    | true =>
      cases hcr : check_rows s.rows with
      | mk o m =>
        cases o with
        | some cleaned => simp [hc, hcr, ih]
        | none => simp [hc, hcr, ih]

/-- C3: a sheet in which zero rows pass validation produces no cleaned series
but the terminal message "No valid rows found in the data" returned to the
caller, and the selectable stock list holds exactly the sheets with both
required columns whose cleaning succeeded — so such a sheet is excluded. -/
theorem no_valid_rows_terminal :
    (∀ df : List Row, df.filter (fun r => (checkRow r).1) = [] →
      check_rows df = (none, ["No valid rows found in the data"])) ∧
    (∀ sheets : List Sheet,
      stockList sheets = (sheets.filter (fun s =>
        s.cols.contains "Date" && s.cols.contains "Price"
          && (check_rows s.rows).1.isSome)).map Sheet.name) := by
  refine ⟨?_, stockList_eq_filter⟩
  intro df h
  rw [check_rows_eq]
  simp [partitionRows_fst, h]

/-- Witness for `no_valid_rows_terminal`: the all-invalid one-row sheet gets
the terminal error. -/
theorem no_valid_rows_terminal_witness :
    check_rows allInvalidDf = (none, ["No valid rows found in the data"]) :=
  no_valid_rows_terminal.1 allInvalidDf (by decide)

/-- C7 (counterexample): a row whose date is the non-null text `"NaT"` and
whose price is 5 passes all three checks, so cleaning succeeds with an empty
report — but the canonical `pd.to_datetime` coercion turns its date into NaT
(a null), and re-running the validator on that cleaned output rejects the row
and returns the terminal error instead of the same rows with no rejections. -/
theorem idempotence_counterexample :
    check_rows [natDateRow]
        = (some [{ date := .null, price := .num 5, extra := [] }], []) ∧
    check_rows [{ date := .null, price := .num 5, extra := [] }]
        = (none, ["No valid rows found in the data"]) := by
  decide

/-- C7 (amended): re-running the validator on a cleaned series it produced
returns the same rows in the same order with an empty validation report,
provided no surviving row's canonical date is NaT (a non-null NaT-parsing
date text passes validation but its canonical coercion is null, and such a
row is rejected on the second run). -/
theorem validator_idempotent :
    ∀ (df cleaned : List Row) (msgs : List String),
      check_rows df = (some cleaned, msgs) →
      (∀ r ∈ cleaned, r.date.isNull = false) →
      check_rows cleaned = (some cleaned, []) := by
  intro df cleaned msgs h hdates
  rw [check_rows_eq] at h
  by_cases hE : (partitionRows 0 df).1 = []
  · rw [if_pos hE] at h
    simp at h
  · rw [if_neg hE] at h
    injection h with h1 h2
    injection h1 with h1
    have hall : ∀ r ∈ cleaned, (checkRow r).1 = true ∧ canonicalize r = r := by
      intro r hr
      have hdn := hdates r hr
      rw [← h1] at hr
      obtain ⟨x, hx, rfl⟩ := List.mem_map.1 hr
      have hxpass : (checkRow x).1 = true := by
        rw [partitionRows_fst] at hx
        exact (List.mem_filter.1 hx).2
      obtain ⟨q, hq, hen, hcanon, hdate⟩ := canonicalize_pass hxpass
      rcases hdate with hnull | ⟨d, hdl⟩
      · exfalso
        rw [hcanon, hnull] at hdn
        simp [Cell.isNull] at hdn
      · rw [hcanon, hdl]
        exact ⟨checkRow_canonical_pass hq hen, canonicalize_canonical⟩
    have hpart : partitionRows 0 cleaned = (cleaned, []) :=
      partitionRows_all_valid 0 cleaned (fun r hr => (hall r hr).1)
    have hne : cleaned ≠ [] := by
      rw [← h1]
      simp only [ne_eq, List.map_eq_nil_iff]
      exact hE
    rw [check_rows_eq cleaned, hpart]
    simp [hne, map_fix canonicalize cleaned (fun r hr => (hall r hr).2)]

/-- Witness for `validator_idempotent`: the cleaned output of the concrete
mixed sheet has no NaT dates and is a fixed point of `check_rows`. -/
theorem validator_idempotent_witness :
    check_rows [{ date := .dateLike 1, price := .num 5, extra := [.num 7] },
                { date := .dateLike 2, price := .num 4, extra := [.text "ok"] }]
      = (some [{ date := .dateLike 1, price := .num 5, extra := [.num 7] },
               { date := .dateLike 2, price := .num 4, extra := [.text "ok"] }], []) :=
  validator_idempotent mixedDf
    [{ date := .dateLike 1, price := .num 5, extra := [.num 7] },
     { date := .dateLike 2, price := .num 4, extra := [.text "ok"] }]
    ["Removed 1 invalid rows:", "Row 2: Contains null values", "Total rows removed: 1"]
    (by decide) (by decide)

/-- C8 (counterexample): a workbook whose first sheet lacks the `Price`
column is processed without any displayed warning — the warning call is
commented out in the source — even though the sheet is skipped and only the
complete sheet reaches the stock list. -/
theorem missing_column_counterexample :
    (processSheets sampleSheets).displayed = [] ∧ stockList sampleSheets = ["MSFT"] := by
  decide

/-- C8 (amended): a sheet lacking either required column is skipped silently
(the loop displays no warning at all), the other sheets are still processed,
and the skipped sheet never appears in the selectable stock list, which holds
exactly the sheets with both required columns whose cleaning succeeded. -/
theorem missing_column_silent_skip :
    (∀ sheets : List Sheet, (processSheets sheets).displayed = []) ∧
    (∀ sheets : List Sheet,
      stockList sheets = (sheets.filter (fun s =>
        s.cols.contains "Date" && s.cols.contains "Price"
          && (check_rows s.rows).1.isSome)).map Sheet.name) :=
  ⟨processSheets_displayed, stockList_eq_filter⟩

/-- C9 (counterexample): a sheet with one rejected row (and no valid row) has
a validation report consisting solely of "No valid rows found in the data" —
neither the "Removed 1 invalid rows:" line nor the "Total rows removed: 1"
line claimed for every sheet with rejections appears. -/
theorem report_counterexample :
    0 < (partitionRows 0 oneBadDf).2.length ∧
    (check_rows oneBadDf).2 = ["No valid rows found in the data"] ∧
    ¬ ("Removed 1 invalid rows:" ∈ (check_rows oneBadDf).2) ∧
    ¬ ("Total rows removed: 1" ∈ (check_rows oneBadDf).2) := by
  decide

/-- C9 (amended): for a sheet where cleaning succeeds, the report is empty
when no row was rejected, and otherwise is exactly the
"Removed N invalid rows:" line, one "Row {i}: {reasons joined by ', '}" line
per rejected row with `i` the 1-based original index, and the final
"Total rows removed: N" line; a sheet with zero valid rows instead gets the
single terminal message. -/
theorem report_format :
    ∀ (df cleaned : List Row) (msgs : List String),
      check_rows df = (some cleaned, msgs) →
      ((partitionRows 0 df).2 = [] → msgs = []) ∧
      ((partitionRows 0 df).2 ≠ [] →
        msgs = ("Removed " ++ toString (partitionRows 0 df).2.length ++ " invalid rows:")
          :: ((partitionRows 0 df).2.map rejectionLine
              ++ ["Total rows removed: " ++ toString (partitionRows 0 df).2.length])) ∧
      (∀ i : ℕ, (partitionRows i df).2 =
        ((df.enumFrom i).filter (fun p => !(checkRow p.2).1)).map
          (fun p => (p.1, (checkRow p.2).2))) := by
  intro df cleaned msgs h
  rw [check_rows_eq] at h
  by_cases hE : (partitionRows 0 df).1 = []
  · rw [if_pos hE] at h
    simp at h
  · rw [if_neg hE] at h
    injection h with h1 h2
    refine ⟨?_, ?_, fun i => partitionRows_snd i df⟩
    · intro hinv
      have hlen := partitionRows_length 0 df
      have h0 : (partitionRows 0 df).2.length = 0 := by rw [hinv]; rfl
      have hrem : df.length - (partitionRows 0 df).1.length = 0 := by omega
      rw [← h2]
      simp [hinv, hrem]
    · intro hinv
      have hpos : 0 < (partitionRows 0 df).2.length := List.length_pos.2 hinv
      have hlen := partitionRows_length 0 df
      have hrem : df.length - (partitionRows 0 df).1.length
          = (partitionRows 0 df).2.length := by omega
      have hie : (partitionRows 0 df).2.isEmpty = false := by
        cases he : (partitionRows 0 df).2 with
        | nil => exact absurd he hinv
        | cons a l => rfl
      rw [← h2]
      simp [hie, hrem, hpos]

/-- Witness for `report_format`: the report of the concrete mixed sheet. -/
theorem report_format_witness :
    ["Removed 1 invalid rows:", "Row 2: Contains null values", "Total rows removed: 1"]
      = ("Removed " ++ toString (partitionRows 0 mixedDf).2.length ++ " invalid rows:")
        :: ((partitionRows 0 mixedDf).2.map rejectionLine
            ++ ["Total rows removed: " ++ toString (partitionRows 0 mixedDf).2.length]) :=
  (report_format mixedDf
    [{ date := .dateLike 1, price := .num 5, extra := [.num 7] },
     { date := .dateLike 2, price := .num 4, extra := [.text "ok"] }]
    ["Removed 1 invalid rows:", "Row 2: Contains null values", "Total rows removed: 1"]
    (by decide)).2.1 (by decide)

/-- C10: when cleaning succeeds, the cleaned series is exactly the passing
rows in their original relative order (the validator never reorders
surviving rows), each with its canonical `Date`/`Price` coercion applied. -/
theorem cleaned_order_preserved :
    ∀ (df cleaned : List Row) (msgs : List String),
      check_rows df = (some cleaned, msgs) →
      cleaned = (df.filter (fun r => (checkRow r).1)).map canonicalize := by
  intro df cleaned msgs h
  rw [check_rows_eq] at h
  by_cases hE : (partitionRows 0 df).1 = []
  · rw [if_pos hE] at h
    simp at h
  · rw [if_neg hE] at h
    injection h with h1 h2
    injection h1 with h1
    rw [← h1, partitionRows_fst]

/-- Witness for `cleaned_order_preserved`: the concrete mixed sheet's cleaned
rows are its two passing rows in input order. -/
theorem cleaned_order_preserved_witness :
    [({ date := .dateLike 1, price := .num 5, extra := [.num 7] } : Row),
     { date := .dateLike 2, price := .num 4, extra := [.text "ok"] }]
      = (mixedDf.filter (fun r => (checkRow r).1)).map canonicalize :=
  cleaned_order_preserved mixedDf
    [{ date := .dateLike 1, price := .num 5, extra := [.num 7] },
     { date := .dateLike 2, price := .num 4, extra := [.text "ok"] }]
    ["Removed 1 invalid rows:", "Row 2: Contains null values", "Total rows removed: 1"]
    (by decide)

end StockDashboard
